import Mathlib

/-!
# StudySet (Quizlet-Learn clone) — verification of the core

Shallow embedding of the core of the StudySet flashcard application:

* the SM-2 scheduler (`spacedRep.js`): `calculateSM2`, `isCardDue`;
* the learn-session answer transitions (`app.js`): `handleGrade`,
  `handleMultipleChoiceAnswer`;
* session persistence (`storage.js`): `saveLearnSession`, `loadLearnSession`;
* the audio cache (`storage.js`): `setCachedAudio`, `evictOldAudioEntries`;
* the TTS pre-cache coordinator (`tts.js`): `getCacheKey`, `preCacheCards`;
* the due-card filter of the state module (`getDueCards`).

JavaScript numbers are modelled with `ℚ` (the decimal constants 0.2, 0.15,
1.3, 0.8 are exact rationals here; at the magnitudes the program uses, the
binary-float rounding of these constants never flips any comparison the
program makes), timestamps and grades with `ℤ`, byte sizes with `ℕ`.
Stateful browser storage (localStorage, IndexedDB) is modelled by explicit
state passing; a JavaScript function that can throw is modelled with
`Option`.
-/

namespace StudySet

/-! ## SM-2 scheduler (`spacedRep.js`) -/

/-- Minimum ease factor (`MIN_EASE` in `spacedRep.js`). -/
def MIN_EASE : ℚ := 13/10

/-- Card review stats as consumed by `calculateSM2`:
`{ ease, interval, repetitions }`. -/
structure Stats where
  ease : ℚ
  interval : ℚ
  repetitions : ℤ
deriving Repr, DecidableEq

/-- Result record of `calculateSM2`:
`{ ease, interval, dueAt, repetitions, lastReviewed }`. -/
structure SM2Result where
  ease : ℚ
  interval : ℚ
  dueAt : ℚ
  repetitions : ℤ
  lastReviewed : ℤ
deriving Repr, DecidableEq

/-- JavaScript `Math.round x = ⌊x + 0.5⌋` (halfway cases round up). -/
def jsRound (q : ℚ) : ℤ := ⌊q + 1/2⌋

/-- Interval chosen by the successful-recall branch of `calculateSM2`
before any grade-specific adjustment: `1` on the first successful review,
`6` on the second, `Math.round(interval * ease)` afterwards. -/
def successInterval (stats : Stats) : ℚ :=
  if stats.repetitions + 1 = 1 then 1
  else if stats.repetitions + 1 = 2 then 6
  else (jsRound (stats.interval * stats.ease) : ℚ)

/-- `calculateSM2(stats, grade)` from `spacedRep.js`.  `now` stands for the
`Date.now()` call made inside the function.  Grade 1 (`AGAIN`) resets the
card; every other grade is treated as a successful recall, with interval
and ease adjustments for grades 2 (`HARD`) and 4 (`EASY`) and no adjustment
otherwise. -/
def calculateSM2 (stats : Stats) (now : ℤ) (grade : ℤ) : SM2Result :=
  if grade = 1 then
    { ease := max MIN_EASE (stats.ease - 2/10)
      interval := 1
      dueAt := (now : ℚ) + 1 * 86400000
      repetitions := 0
      lastReviewed := now }
  else
    let base := successInterval stats
    let newInterval : ℚ :=
      if grade = 2 then ((max 1 (jsRound (base * (8/10))) : ℤ) : ℚ)
      else if grade = 3 then base
      else if grade = 4 then (jsRound (base * (13/10)) : ℚ)
      else base
    let newEase : ℚ :=
      if grade = 2 then max MIN_EASE (stats.ease - 15/100)
      else if grade = 4 then stats.ease + 15/100
      else stats.ease
    { ease := newEase
      interval := newInterval
      dueAt := (now : ℚ) + newInterval * 86400000
      repetitions := stats.repetitions + 1
      lastReviewed := now }

/-- C1: For every stats record with ease ≥ 1.3 and every grade in
{1 (Again), 2 (Hard), 3 (Good), 4 (Easy)}, the `ease` field of the result
of `calculateSM2` is ≥ 1.3. -/
theorem calculateSM2_ease_floor (stats : Stats) (now grade : ℤ)
    (hg : grade ∈ ([1, 2, 3, 4] : List ℤ)) (he : MIN_EASE ≤ stats.ease) :
    MIN_EASE ≤ (calculateSM2 stats now grade).ease := by
  simp only [List.mem_cons, List.mem_singleton, List.not_mem_nil, or_false] at hg
  rcases hg with h | h | h | h <;> subst h <;>
    simp [calculateSM2] <;> first
      | exact Or.inl le_rfl
      | linarith

/-- Witness for C1 at a concrete input: ease 2.5, grade Hard. -/
theorem calculateSM2_ease_floor_witness :
    (2 : ℤ) ∈ ([1, 2, 3, 4] : List ℤ) ∧ MIN_EASE ≤ (5/2 : ℚ) ∧
      MIN_EASE ≤ (calculateSM2 ⟨5/2, 1, 0⟩ 0 2).ease :=
  ⟨by decide, by norm_num [MIN_EASE],
    calculateSM2_ease_floor ⟨5/2, 1, 0⟩ 0 2 (by decide) (by norm_num [MIN_EASE])⟩

/-- C2 counterexample: at the out-of-range grade 5, `calculateSM2` does not
fail at all — it returns a normal result through the successful-recall
branch (repetitions incremented, ease unchanged, interval from the
repetition rule), there being no `InvalidGrade` (or any other) error path
in the function. -/
theorem calculateSM2_grade5_no_error :
    calculateSM2 ⟨5/2, 10, 3⟩ 0 5 =
      { ease := 5/2, interval := 25, dueAt := 2160000000,
        repetitions := 4, lastReviewed := 0 } := by
  norm_num [calculateSM2, successInterval, jsRound]

/-- C2 amended: `calculateSM2` never fails: for every grade outside
{1, 2, 3, 4} it silently defaults to the successful-recall branch, with
ease unchanged and no grade-specific interval adjustment. -/
theorem calculateSM2_out_of_range_defaults (stats : Stats) (now grade : ℤ)
    (hg : grade ∉ ([1, 2, 3, 4] : List ℤ)) :
    calculateSM2 stats now grade =
      { ease := stats.ease
        interval := successInterval stats
        dueAt := (now : ℚ) + successInterval stats * 86400000
        repetitions := stats.repetitions + 1
        lastReviewed := now } := by
  simp only [List.mem_cons, List.mem_singleton, List.not_mem_nil, or_false,
    not_or] at hg
  obtain ⟨h1, h2, h3, h4⟩ := hg
  simp [calculateSM2, h1, h2, h3, h4]

/-- Witness for the amended C2 at grade 5. -/
theorem calculateSM2_out_of_range_defaults_witness :
    (5 : ℤ) ∉ ([1, 2, 3, 4] : List ℤ) ∧
      calculateSM2 ⟨5/2, 10, 3⟩ 0 5 =
        { ease := (5/2 : ℚ)
          interval := successInterval ⟨5/2, 10, 3⟩
          dueAt := (0 : ℚ) + successInterval ⟨5/2, 10, 3⟩ * 86400000
          repetitions := 4
          lastReviewed := 0 } :=
  ⟨by decide, calculateSM2_out_of_range_defaults ⟨5/2, 10, 3⟩ 0 5 (by decide)⟩

/-! ## Learn-session persistence (`storage.js`) -/

/-- A learn session as persisted by `storage.js` (the fields the
round-trip claim enumerates; `unseenIds` is the question queue). -/
structure LearnSession where
  unseenIds : List String
  masteredIds : List String
  currentQuestionId : Option String
  questionsAnswered : ℕ
  correctCount : ℕ
  mode : String
  startedAt : ℤ
  savedAt : ℤ
deriving Repr, DecidableEq

/-- Seven days in milliseconds (`7 * 24 * 60 * 60 * 1000`). -/
def SEVEN_DAYS_MS : ℤ := 604800000

/-- `saveLearnSession(session)` from `storage.js`, with the localStorage
slot passed explicitly as `store` and `Date.now()` as `now`.  A null
session removes the stored item; otherwise the session is stored with
`savedAt` overwritten by `now` (`{...session, savedAt: Date.now()}`).
Returns the new store contents and the boolean result. -/
def saveLearnSession (store : Option LearnSession) (session : Option LearnSession)
    (now : ℤ) : Option LearnSession × Bool :=
  match session with
  | none => (none, true)
  | some s => (some { s with savedAt := now }, true)

/-- `loadLearnSession()` from `storage.js`, over the explicit localStorage
slot `store` and `Date.now()` as `now`.  A stored session older than seven
days is removed and reported as absent.  Returns the loaded session and
the store contents afterwards. -/
def loadLearnSession (store : Option LearnSession) (now : ℤ) :
    Option LearnSession × Option LearnSession :=
  match store with
  | none => (none, none)
  | some s =>
    if SEVEN_DAYS_MS < now - s.savedAt then (none, none)
    else (some s, some s)

/-- C6 counterexample: saving a session whose `savedAt` is 0 at time 1000
and loading immediately does not return the session unchanged — `savedAt`
has been overwritten with the save time. -/
theorem saveLoad_roundtrip_cex :
    (loadLearnSession
        (saveLearnSession none (some ⟨[], [], none, 0, 0, "all", 0, 0⟩) 1000).1
        1000).1 ≠
      some ⟨[], [], none, 0, 0, "all", 0, 0⟩ := by
  decide

/-- C6 amended: saving a session at time `tS` and loading at any time `tL`
within seven days returns a session equal to the original on every field
except `savedAt`, which equals the save time `tS` (save overwrites it). -/
theorem saveLoad_roundtrip (store : Option LearnSession) (s : LearnSession)
    (tS tL : ℤ) (h : tL - tS ≤ SEVEN_DAYS_MS) :
    (loadLearnSession (saveLearnSession store (some s) tS).1 tL).1 =
      some { s with savedAt := tS } := by
  have h2 : ¬ SEVEN_DAYS_MS < tL - tS := not_lt.mpr (by omega)
  simp [saveLearnSession, loadLearnSession, h2]

/-- Witness for the amended C6. -/
theorem saveLoad_roundtrip_witness :
    (1000 : ℤ) - 1000 ≤ SEVEN_DAYS_MS ∧
      (loadLearnSession
          (saveLearnSession none (some ⟨[], [], none, 0, 0, "all", 0, 0⟩) 1000).1
          1000).1 =
        some ⟨[], [], none, 0, 0, "all", 0, 1000⟩ :=
  ⟨by decide,
    saveLoad_roundtrip none ⟨[], [], none, 0, 0, "all", 0, 0⟩ 1000 1000 (by decide)⟩

/-- C8: loading a persisted session strictly older than seven days returns
absence and discards the stored session; loading one at most seven days
old returns it unchanged. -/
theorem loadLearnSession_expiry (s : LearnSession) (now : ℤ) :
    (SEVEN_DAYS_MS < now - s.savedAt → loadLearnSession (some s) now = (none, none)) ∧
    (now - s.savedAt ≤ SEVEN_DAYS_MS → (loadLearnSession (some s) now).1 = some s) := by
  constructor
  · intro h
    simp [loadLearnSession, h]
  · intro h
    simp [loadLearnSession, not_lt.mpr h]

/-- Witness for C8: a session saved 8 days ago is discarded, one saved
6 days ago is returned unchanged. -/
theorem loadLearnSession_expiry_witness :
    loadLearnSession (some ⟨[], [], none, 0, 0, "all", 0, 0⟩) 691200000 =
        (none, none) ∧
      (loadLearnSession (some ⟨[], [], none, 0, 0, "all", 0, 0⟩) 518400000).1 =
        some ⟨[], [], none, 0, 0, "all", 0, 0⟩ :=
  ⟨(loadLearnSession_expiry ⟨[], [], none, 0, 0, "all", 0, 0⟩ 691200000).1 (by decide),
    (loadLearnSession_expiry ⟨[], [], none, 0, 0, "all", 0, 0⟩ 518400000).2 (by decide)⟩

/-- C10: saving a null session reports success and removes the persisted
session, so a subsequent load (at any time) returns absence. -/
theorem saveLearnSession_null_clears (store : Option LearnSession) (tS tL : ℤ) :
    (saveLearnSession store none tS).2 = true ∧
    (saveLearnSession store none tS).1 = none ∧
    (loadLearnSession (saveLearnSession store none tS).1 tL).1 = none := by
  refine ⟨rfl, rfl, ?_⟩
  simp [saveLearnSession, loadLearnSession]

/-! ## Learn-session answer transitions (`app.js`) -/

/-- Session transition of `handleGrade(grade)` in `app.js`.  The card-stats
update (`calculateSM2`), analytics and rendering act outside the session
record and are omitted; `r` is the value of
`Math.floor(Math.random() * 3) + 2` (so `r ∈ {2, 3, 4}`).  If no current
card is found the handler returns early; otherwise `questionsAnswered` is
incremented, and the card is either retired to `masteredIds` (grade ≥ 3,
`GOOD`) or, on a failing grade, the queue head is shifted off and the card
re-inserted at `min(queue.length, r)` (`splice`). -/
def handleGrade (s : LearnSession) (r : ℕ) (grade : ℤ) : LearnSession :=
  match s.currentQuestionId with
  | none => s
  | some cid =>
    if 3 ≤ grade then
      { s with
        questionsAnswered := s.questionsAnswered + 1
        unseenIds := s.unseenIds.tail
        masteredIds := s.masteredIds ++ [cid]
        correctCount := s.correctCount + 1 }
    else
      let rest := s.unseenIds.tail
      let insertIndex := min rest.length r
      { s with
        questionsAnswered := s.questionsAnswered + 1
        unseenIds := rest.take insertIndex ++ cid :: rest.drop insertIndex }

/-- Session transition of `handleMultipleChoiceAnswer(isCorrect, ...)` in
`app.js`: identical queue handling to `handleGrade`, branching on
`isCorrect` instead of the grade (the card-level `masteryLevel` counter is
outside the session record). -/
def handleMultipleChoiceAnswer (s : LearnSession) (r : ℕ) (isCorrect : Bool) :
    LearnSession :=
  match s.currentQuestionId with
  | none => s
  | some cid =>
    if isCorrect then
      { s with
        questionsAnswered := s.questionsAnswered + 1
        unseenIds := s.unseenIds.tail
        masteredIds := s.masteredIds ++ [cid]
        correctCount := s.correctCount + 1 }
    else
      let rest := s.unseenIds.tail
      let insertIndex := min rest.length r
      { s with
        questionsAnswered := s.questionsAnswered + 1
        unseenIds := rest.take insertIndex ++ cid :: rest.drop insertIndex }

/-- C4: on a failing answer (grade < 3 in grading mode, `isCorrect = false`
in multiple-choice mode) with the current card at the front of the queue
and `r ∈ {2, 3, 4}` the random draw, both handlers pop the card from the
front and re-insert it at index `min(queue.length, r)` of the remaining
queue — so the card stays in play and reappears within at most 4 (and,
when the remaining queue is long enough, at least 2) positions — while
`questionsAnswered` is incremented and `masteredIds` is unchanged. -/
theorem answer_failure_requeues (s : LearnSession) (cid : String)
    (rest : List String) (r : ℕ) (grade : ℤ)
    (hq : s.unseenIds = cid :: rest) (hc : s.currentQuestionId = some cid)
    (hr2 : 2 ≤ r) (hr4 : r ≤ 4) (hg : grade < 3) :
    (handleGrade s r grade).unseenIds =
        rest.take (min rest.length r) ++ cid :: rest.drop (min rest.length r) ∧
      cid ∈ (handleGrade s r grade).unseenIds ∧
      (handleGrade s r grade).questionsAnswered = s.questionsAnswered + 1 ∧
      (handleGrade s r grade).masteredIds = s.masteredIds ∧
      handleMultipleChoiceAnswer s r false = handleGrade s r grade ∧
      min rest.length r ≤ 4 ∧ (2 ≤ rest.length → 2 ≤ min rest.length r) := by
  have hng : ¬ (3 ≤ grade) := not_le.mpr hg
  refine ⟨?_, ?_, ?_, ?_, ?_, ?_, ?_⟩
  · simp [handleGrade, hc, hq, hng]
  · simp [handleGrade, hc, hq, hng]
  · simp [handleGrade, hc, hq, hng]
  · simp [handleGrade, hc, hq, hng]
  · simp [handleGrade, handleMultipleChoiceAnswer, hc, hq, hng]
  · omega
  · intro h; omega

/-- Witness for C4: queue `[a, b, c, d, e]`, failing grade 1, random
draw 3. -/
theorem answer_failure_requeues_witness :
    (⟨["a", "b", "c", "d", "e"], [], some "a", 0, 0, "all", 0, 0⟩ :
        LearnSession).unseenIds = "a" :: ["b", "c", "d", "e"] ∧
      (handleGrade ⟨["a", "b", "c", "d", "e"], [], some "a", 0, 0, "all", 0, 0⟩
            3 1).unseenIds =
        ["b", "c", "d", "e"].take (min ["b", "c", "d", "e"].length 3) ++
          "a" :: ["b", "c", "d", "e"].drop (min ["b", "c", "d", "e"].length 3) :=
  ⟨rfl,
    (answer_failure_requeues
        ⟨["a", "b", "c", "d", "e"], [], some "a", 0, 0, "all", 0, 0⟩
        "a" ["b", "c", "d", "e"] 3 1 rfl rfl (by decide) (by decide)
        (by decide)).1⟩

/-! ## Audio cache (`storage.js`)

The IndexedDB object store is modelled as a list of entries kept in the
order the `accessedAt` index cursor visits them (ascending `accessedAt`).
The hysteresis comparison `totalSize - removed <= maxBytes * 0.8` is
modelled exactly as `5 * remaining ≤ 4 * maxBytes`. -/

/-- One audio cache entry as stored in IndexedDB:
`{ key, size, accessedAt }` (the blob itself only matters through its
size). -/
structure AudioEntry where
  key : String
  size : ℕ
  accessedAt : ℤ
deriving Repr, DecidableEq

/-- Total stored bytes (`totalSize` accumulated by the cursor scan). -/
def totalSize (l : List AudioEntry) : ℕ := (l.map (fun e => e.size)).sum

/-- The deletion loop of `evictOldAudioEntries`: walking the entries in
cursor (ascending `accessedAt`) order, stop as soon as the remaining bytes
are within `0.8 * maxBytes` (`5 * remaining ≤ 4 * maxBytes`), otherwise
delete the entry and continue.  `remaining` is `totalSize - removed`. -/
def evictLoop (maxBytes : ℕ) : ℕ → List AudioEntry → List AudioEntry
  | _, [] => []
  | remaining, e :: rest =>
    if 5 * remaining ≤ 4 * maxBytes then e :: rest
    else evictLoop maxBytes (remaining - e.size) rest

/-- `evictOldAudioEntries(maxSizeMB)` from `storage.js`:
`maxBytes = maxSizeMB * 1024 * 1024`; if the total stored bytes exceed
`maxBytes`, run the deletion loop, else leave the store untouched. -/
def evictOldAudioEntries (maxSizeMB : ℕ) (l : List AudioEntry) : List AudioEntry :=
  let maxBytes := maxSizeMB * 1024 * 1024
  if maxBytes < totalSize l then evictLoop maxBytes (totalSize l) l else l

/-- The `store.put` step of `setCachedAudio`: IndexedDB `put` with key path
`key` replaces any entry with the same key; the written entry has
`accessedAt = now`, which is ≥ every existing `accessedAt`, so in cursor
order it sits at the end. -/
def putAudioEntry (key : String) (size : ℕ) (now : ℤ) (l : List AudioEntry) :
    List AudioEntry :=
  l.filter (fun e => e.key ≠ key) ++ [⟨key, size, now⟩]

/-- `setCachedAudio(key, blob, maxSizeMB)` from `storage.js`: put the entry,
then evict old entries against the `maxSizeMB` budget. -/
def setCachedAudio (key : String) (size : ℕ) (now : ℤ) (maxSizeMB : ℕ)
    (l : List AudioEntry) : List AudioEntry :=
  evictOldAudioEntries maxSizeMB (putAudioEntry key size now l)

lemma evictLoop_is_suffix (maxBytes : ℕ) :
    ∀ l : List AudioEntry, ∃ d, l = d ++ evictLoop maxBytes (totalSize l) l := by
  intro l
  induction l with
  | nil => exact ⟨[], rfl⟩
  | cons e rest ih =>
    by_cases h : 5 * totalSize (e :: rest) ≤ 4 * maxBytes
    · exact ⟨[], by simp [evictLoop, h]⟩
    · obtain ⟨d, hd⟩ := ih
      refine ⟨e :: d, ?_⟩
      have hsub : totalSize (e :: rest) - e.size = totalSize rest := by
        simp [totalSize]
      simp only [evictLoop, if_neg h, hsub]
      exact congrArg (List.cons e) hd

lemma evictLoop_bound (maxBytes : ℕ) :
    ∀ l : List AudioEntry,
      5 * totalSize (evictLoop maxBytes (totalSize l) l) ≤ 4 * maxBytes := by
  intro l
  induction l with
  | nil => simp [evictLoop, totalSize]
  | cons e rest ih =>
    by_cases h : 5 * totalSize (e :: rest) ≤ 4 * maxBytes
    · simp [evictLoop, h]
    · have hsub : totalSize (e :: rest) - e.size = totalSize rest := by
        simp [totalSize]
      simpa only [evictLoop, if_neg h, hsub] using ih

lemma evictLoop_longest (maxBytes : ℕ) :
    ∀ l d k : List AudioEntry, l = d ++ k → 5 * totalSize k ≤ 4 * maxBytes →
      k.length ≤ (evictLoop maxBytes (totalSize l) l).length := by
  intro l
  induction l with
  | nil =>
    intro d k hdk _
    have : k = [] := by
      rcases List.append_eq_nil.mp hdk.symm with ⟨_, hk⟩
      exact hk
    simp [this]
  | cons e rest ih =>
    intro d k hdk hk
    by_cases h : 5 * totalSize (e :: rest) ≤ 4 * maxBytes
    · have hlen : k.length ≤ (e :: rest).length := by
        rw [hdk]; simp
      simpa [evictLoop, h] using hlen
    · have hsub : totalSize (e :: rest) - e.size = totalSize rest := by
        simp [totalSize]
      rw [evictLoop, if_neg h, hsub]
      match d, hdk with
      | [], hdk =>
        exfalso
        have : k = e :: rest := by simpa using hdk.symm
        rw [this] at hk
        exact h hk
      | d₀ :: d', hdk =>
        have : rest = d' ++ k := by
          simpa using congrArg List.tail hdk
        exact ih d' k this hk

/-- C3: inserting via `setCachedAudio` with budget `maxSizeMB`, given the
store in ascending `accessedAt` order and a clock at least every stored
`accessedAt`: writing the entry yields `l₁`; if the total bytes of `l₁`
are within `maxBytes = maxSizeMB * 2^20` nothing is deleted, and if they
exceed `maxBytes` the result drops exactly a prefix of `l₁` (the
oldest-`accessedAt` entries), the kept bytes are ≤ `0.8 * maxBytes`, every
evicted entry is no newer than every kept one, and the eviction is minimal:
no split keeping more entries satisfies the bound. -/
theorem setCachedAudio_evicts_oldest (key : String) (size : ℕ) (now : ℤ)
    (maxSizeMB : ℕ) (l : List AudioEntry)
    (hSorted : l.Pairwise (fun a b => a.accessedAt ≤ b.accessedAt))
    (hNow : ∀ e ∈ l, e.accessedAt ≤ now) :
    (totalSize (putAudioEntry key size now l) ≤ maxSizeMB * 1024 * 1024 →
      setCachedAudio key size now maxSizeMB l = putAudioEntry key size now l) ∧
    (maxSizeMB * 1024 * 1024 < totalSize (putAudioEntry key size now l) →
      ∃ dropped kept,
        putAudioEntry key size now l = dropped ++ kept ∧
        setCachedAudio key size now maxSizeMB l = kept ∧
        5 * totalSize kept ≤ 4 * (maxSizeMB * 1024 * 1024) ∧
        (∀ a ∈ dropped, ∀ b ∈ kept, a.accessedAt ≤ b.accessedAt) ∧
        (∀ d k, putAudioEntry key size now l = d ++ k →
          5 * totalSize k ≤ 4 * (maxSizeMB * 1024 * 1024) →
          k.length ≤ kept.length)) := by
  constructor
  · intro h
    simp [setCachedAudio, evictOldAudioEntries, not_lt.mpr h]
  · intro h
    obtain ⟨dropped, hdrop⟩ :=
      evictLoop_is_suffix (maxSizeMB * 1024 * 1024) (putAudioEntry key size now l)
    refine ⟨dropped,
      evictLoop (maxSizeMB * 1024 * 1024)
        (totalSize (putAudioEntry key size now l)) (putAudioEntry key size now l),
      hdrop, ?_, evictLoop_bound _ _, ?_, fun d k => evictLoop_longest _ _ d k⟩
    · simp [setCachedAudio, evictOldAudioEntries, h]
    · have hps : (putAudioEntry key size now l).Pairwise
          (fun a b => a.accessedAt ≤ b.accessedAt) := by
        unfold putAudioEntry
        rw [List.pairwise_append]
        refine ⟨hSorted.filter _, by simp, ?_⟩
        intro a ha b hb
        simp only [List.mem_singleton] at hb
        subst hb
        exact hNow a (List.mem_of_mem_filter ha)
      rw [hdrop, List.pairwise_append] at hps
      exact hps.2.2

/-- Witness for C3: budget 1 MB, two stored entries of 500000 bytes each,
inserting a third of 500000 bytes; the two oldest entries are evicted and
only the new one is kept (1500000 > 2²⁰ and 5 · 500000 ≤ 4 · 2²⁰). -/
theorem setCachedAudio_evicts_oldest_witness :
    ([⟨"a", 500000, 1⟩, ⟨"b", 500000, 2⟩] :
        List AudioEntry).Pairwise (fun a b => a.accessedAt ≤ b.accessedAt) ∧
    (1 : ℕ) * 1024 * 1024 <
      totalSize (putAudioEntry "c" 500000 3 [⟨"a", 500000, 1⟩, ⟨"b", 500000, 2⟩]) ∧
    ∃ dropped kept,
      putAudioEntry "c" 500000 3 [⟨"a", 500000, 1⟩, ⟨"b", 500000, 2⟩] =
          dropped ++ kept ∧
        setCachedAudio "c" 500000 3 1 [⟨"a", 500000, 1⟩, ⟨"b", 500000, 2⟩] = kept ∧
        5 * totalSize kept ≤ 4 * (1 * 1024 * 1024) ∧
        (∀ a ∈ dropped, ∀ b ∈ kept, a.accessedAt ≤ b.accessedAt) ∧
        (∀ d k,
          putAudioEntry "c" 500000 3 [⟨"a", 500000, 1⟩, ⟨"b", 500000, 2⟩] = d ++ k →
          5 * totalSize k ≤ 4 * (1 * 1024 * 1024) → k.length ≤ kept.length) :=
  ⟨by decide, by decide,
    (setCachedAudio_evicts_oldest "c" 500000 3 1
        [⟨"a", 500000, 1⟩, ⟨"b", 500000, 2⟩] (by decide) (by decide)).2
      (by decide)⟩

/-! ## TTS pre-cache coordinator (`tts.js`) -/

/-- A card as seen by the pre-cache coordinator (only `term` matters). -/
structure TtsCard where
  term : String
deriving Repr, DecidableEq

/-- The coordinator's module state: the pending queue (`preCacheQueue`)
and the in-flight-drain flag (`isPreCaching`). -/
structure PreCacheState where
  preCacheQueue : List TtsCard
  isPreCaching : Bool
deriving Repr, DecidableEq

/-- `preCacheCards(cards)` from `tts.js`, with the module state passed
explicitly and the premium-TTS configuration as booleans.  When premium
synthesis is configured, the pending queue is assigned
`cards.filter(c => c && c.term)` (a card with an empty term is falsy and
dropped), and `processPreCacheQueue()` is invoked only when no drain is in
flight.  The returned boolean records whether a new drain was started. -/
def preCacheCards (cards : List TtsCard) (usePremium hasKey : Bool)
    (st : PreCacheState) : PreCacheState × Bool :=
  if usePremium && hasKey then
    let st' := { st with preCacheQueue := cards.filter (fun c => c.term ≠ "") }
    if st.isPreCaching then (st', false) else (st', true)
  else (st, false)

/-- C5 counterexample: with a drain in progress and card `a` pending,
`preCacheCards` with the new candidate list `[b]` leaves a queue holding
only `b` — the previously pending candidate `a` is discarded, not kept,
so the new list was assigned over the queue rather than appended to it. -/
theorem preCacheCards_drops_pending_cex :
    (preCacheCards [⟨"b"⟩] true true ⟨[⟨"a"⟩], true⟩).1.preCacheQueue = [⟨"b"⟩] ∧
      (⟨"a"⟩ : TtsCard) ∉
        (preCacheCards [⟨"b"⟩] true true ⟨[⟨"a"⟩], true⟩).1.preCacheQueue := by
  decide

/-- C5 amended: invoking `preCacheCards` while a drain is in progress
replaces the pending queue with the filtered new candidate list (the
previously pending candidates are discarded) and does not start a second
concurrent drain. -/
theorem preCacheCards_replaces_queue (cards : List TtsCard) (st : PreCacheState)
    (h : st.isPreCaching = true) :
    (preCacheCards cards true true st).1.preCacheQueue =
        cards.filter (fun c => c.term ≠ "") ∧
      (preCacheCards cards true true st).1.isPreCaching = st.isPreCaching ∧
      (preCacheCards cards true true st).2 = false := by
  simp [preCacheCards, h]

/-- Witness for the amended C5. -/
theorem preCacheCards_replaces_queue_witness :
    (⟨[⟨"a"⟩], true⟩ : PreCacheState).isPreCaching = true ∧
      (preCacheCards [⟨"b"⟩] true true ⟨[⟨"a"⟩], true⟩).1.preCacheQueue =
          [⟨"b"⟩].filter (fun c => c.term ≠ "") ∧
        (preCacheCards [⟨"b"⟩] true true ⟨[⟨"a"⟩], true⟩).1.isPreCaching =
          (⟨[⟨"a"⟩], true⟩ : PreCacheState).isPreCaching ∧
        (preCacheCards [⟨"b"⟩] true true ⟨[⟨"a"⟩], true⟩).2 = false :=
  ⟨rfl, preCacheCards_replaces_queue [⟨"b"⟩] ⟨[⟨"a"⟩], true⟩ rfl⟩

/-- `getCacheKey(text, voiceId)` from `tts.js`: the text truncated to its
first 100 characters, a `-` separator from the template literal, then the
voice id.  Strings are modelled as lists of characters. -/
def getCacheKey (text voiceId : List Char) : List Char :=
  text.take 100 ++ '-' :: voiceId

/-- C9 counterexample: the key is not the plain concatenation of the
truncated text and the voice id — the template literal puts a `-`
between them. -/
theorem getCacheKey_formula_cex :
    getCacheKey ['a'] ['v', '1'] ≠ ['a'] ++ ['v', '1'] := by
  decide

/-- C9 amended: texts agreeing on their first 100 characters always get
the same key for the same voice (in particular the two 151-character
texts of the claim collide), and the key is the first 100 characters of
the text, a `-` separator, and the voice id. -/
theorem getCacheKey_prefix_collision :
    (∀ t₁ t₂ v : List Char, t₁.take 100 = t₂.take 100 →
        getCacheKey t₁ v = getCacheKey t₂ v) ∧
      getCacheKey (List.replicate 150 'a' ++ ['X']) ['v', '1'] =
          getCacheKey (List.replicate 150 'a' ++ ['Y']) ['v', '1'] ∧
        ∀ t v : List Char, getCacheKey t v = t.take 100 ++ '-' :: v :=
  ⟨fun t₁ t₂ v h => by simp [getCacheKey, h], by decide, fun t v => rfl⟩

/-- Witness for C9, applying the collision direction to the claim's two
151-character texts. -/
theorem getCacheKey_prefix_collision_witness :
    (List.replicate 150 'a' ++ ['X']).take 100 =
        (List.replicate 150 'a' ++ ['Y']).take 100 ∧
      getCacheKey (List.replicate 150 'a' ++ ['X']) ['w'] =
        getCacheKey (List.replicate 150 'a' ++ ['Y']) ['w'] :=
  ⟨by decide,
    getCacheKey_prefix_collision.1 (List.replicate 150 'a' ++ ['X'])
      (List.replicate 150 'a' ++ ['Y']) ['w'] (by decide)⟩

/-! ## Due queries (`spacedRep.js` and the state module) -/

/-- The scheduling stats a due query inspects; `dueAt = none` models an
absent (`undefined`) field. -/
structure DueStats where
  dueAt : Option ℤ
deriving Repr, DecidableEq

/-- A card as seen by the due queries; `stats = none` models an absent
`stats` object. -/
structure DueCard where
  stats : Option DueStats
deriving Repr, DecidableEq

/-- `isCardDue(card)` from `spacedRep.js`:
`if (!card.stats || !card.stats.dueAt) return true; return
card.stats.dueAt <= Date.now()`.  A missing stats object, a missing
`dueAt`, or the falsy timestamp `0` all yield `true`. -/
def isCardDue (c : DueCard) (now : ℤ) : Bool :=
  match c.stats with
  | none => true
  | some st =>
    match st.dueAt with
    | none => true
    | some d => if d = 0 then true else decide (d ≤ now)

/-- The due-cards filter of the state module (`getDueCards`):
`set.cards.filter(card => card.stats.dueAt <= now)`.  Reading `.dueAt` of
an absent stats object throws a `TypeError` (modelled as `none`); an
absent `dueAt` compares as `undefined <= now`, which is `false`. -/
def stateGetDueCards : List DueCard → ℤ → Option (List DueCard)
  | [], _ => some []
  | c :: rest, now =>
    match c.stats with
    | none => none
    | some st =>
      (stateGetDueCards rest now).map
        (fun l =>
          if (match st.dueAt with
              | none => false
              | some d => decide (d ≤ now)) then c :: l else l)

/-- Whether a card has a present `dueAt` that is ≤ `now` (the condition
the state module's filter actually keeps). -/
def dueAtLe (c : DueCard) (now : ℤ) : Bool :=
  match c.stats with
  | none => false
  | some st =>
    match st.dueAt with
    | none => false
    | some d => decide (d ≤ now)

/-- C7 counterexample: a card whose stats lack `dueAt` is due per
`isCardDue` but is excluded by the state module's filter, and a card with
absent stats is due per `isCardDue` while the filter fails on it
(`TypeError`) instead of returning it — so the claimed biconditional does
not hold for both implementations. -/
theorem due_query_disagreement_cex :
    isCardDue ⟨some ⟨none⟩⟩ 0 = true ∧
      stateGetDueCards [⟨some ⟨none⟩⟩] 0 = some [] ∧
      isCardDue ⟨none⟩ 0 = true ∧
      stateGetDueCards [⟨none⟩] 0 = none := by
  decide

/-- C7 amended: with a non-negative clock, `isCardDue` is true exactly when
the stats are absent, the `dueAt` field is absent, or `dueAt ≤ now`
(absent treated as due); the state module's `getDueCards` instead returns
exactly the cards with a present `dueAt ≤ now` when every card has stats,
and fails (returns nothing) whenever some card's stats are absent. -/
theorem due_query_amended (now : ℤ) (hnow : 0 ≤ now) :
    (∀ c : DueCard, isCardDue c now = true ↔
        c.stats = none ∨ ∃ st, c.stats = some st ∧
          (st.dueAt = none ∨ ∃ d, st.dueAt = some d ∧ d ≤ now)) ∧
      (∀ cards : List DueCard, (∀ c ∈ cards, c.stats ≠ none) →
          stateGetDueCards cards now =
            some (cards.filter (fun c => dueAtLe c now))) ∧
        ∀ cards : List DueCard, (∃ c ∈ cards, c.stats = none) →
          stateGetDueCards cards now = none := by
  refine ⟨?_, ?_, ?_⟩
  · rintro ⟨_ | ⟨_ | d⟩⟩
    · simp [isCardDue]
    · simp [isCardDue]
    · by_cases hd : d = 0
      · subst hd
        simp [isCardDue, hnow]
      · simp [isCardDue, hd]
  · intro cards
    induction cards with
    | nil => intro _; rfl
    | cons c rest ih =>
      intro h
      obtain ⟨st, hst⟩ := Option.ne_none_iff_exists.mp (h c (List.mem_cons_self c rest))
      have hrest := ih (fun x hx => h x (List.mem_cons_of_mem c hx))
      rcases st.dueAt.eq_none_or_eq_some with hd | ⟨d, hd⟩ <;>
        simp [stateGetDueCards, ← hst, hrest, List.filter_cons, dueAtLe, hd]
  · intro cards
    induction cards with
    | nil => rintro ⟨c, hc, _⟩; cases hc
    | cons c rest ih =>
      rintro ⟨x, hx, hxs⟩
      rcases List.mem_cons.mp hx with hx | hx
      · subst hx
        simp [stateGetDueCards, hxs]
      · rcases c.stats.eq_none_or_eq_some with hc | ⟨st, hc⟩ <;>
          simp [stateGetDueCards, hc, ih ⟨x, hx, hxs⟩]

/-- Witness for the amended C7 at `now = 5`: a card due at 3 is due both
ways, and the filter fails on a stats-less card. -/
theorem due_query_amended_witness :
    (0 : ℤ) ≤ 5 ∧
      (isCardDue ⟨some ⟨some 3⟩⟩ 5 = true ↔
        (⟨some ⟨some 3⟩⟩ : DueCard).stats = none ∨
          ∃ st, (⟨some ⟨some 3⟩⟩ : DueCard).stats = some st ∧
            (st.dueAt = none ∨ ∃ d, st.dueAt = some d ∧ d ≤ 5)) ∧
      stateGetDueCards [⟨none⟩] 5 = none :=
  ⟨by decide, (due_query_amended 5 (by decide)).1 ⟨some ⟨some 3⟩⟩,
    (due_query_amended 5 (by decide)).2.2 [⟨none⟩] ⟨⟨none⟩, by decide, rfl⟩⟩

end StudySet
